import Mathlib

/-!
Verification development for the cloudpelican-lsd repository.

The repository has three code areas that are embedded here:

* `storm/.../SupervisorStatsWriterBolt.java` — the per-worker metric
  aggregator: minute bucketing, the string-concatenated aggregation key,
  in-memory accumulation, and the tick-triggered flush.
* `supervisor/supervisor.go` — the HTTP registry handlers and the shared
  basic-auth gate in front of them.  The `FilterManager`/`Filter` store the
  handlers call into is not among the provided sources; those operations are
  modelled from the spec and marked as such.
* the CLI statistics tool (`statistics.go`) — terminal size loading and the
  ASCII chart renderer `RenderChart` with its colour-transition encoder.

Machine integers (Java `long`/`int`, Go `int`/`int64`) are modelled as `Int`;
none of the verified properties involve overflow.  Java's `%` on integers
truncates toward zero, hence `Int.tmod` below.  Go's float64 arithmetic in the
row-threshold computation is modelled exactly over `ℚ` with the final `int64`
conversion truncating toward zero.
-/

namespace CloudPelican

/-! ### Storm processor: `SupervisorStatsWriterBolt` -/

/-- Modelled from the spec: the `SupervisorFilterStats` class (not under the
provided sources) holds the `(filterId, metric, bucket)` triple together with
an additive counter that `increment` adds to. -/
structure SupervisorFilterStats where
  filterId : String
  metric : Int
  bucket : Int
  count : Int
  deriving DecidableEq

/-- Modelled from the spec: `SupervisorFilterStats.increment` adds the delta
to the stored counter. -/
def SupervisorFilterStats.increment (s : SupervisorFilterStats) (inc : Int) :
    SupervisorFilterStats :=
  { s with count := s.count + inc }

/-- Decimal digit characters of a natural number, most significant first
(Java `Long.toString` for a non-negative value). -/
def natToChars (n : Nat) : List Char :=
  if n < 10 then [Char.ofNat (48 + n)]
  else natToChars (n / 10) ++ [Char.ofNat (48 + n % 10)]
  termination_by n
  decreasing_by exact Nat.div_lt_self (by omega) (by omega)

/-- Java `Long.toString`: an optional minus sign followed by decimal digits. -/
def intToChars (i : Int) : List Char :=
  if i < 0 then '-' :: natToChars (-i).toNat else natToChars i.toNat

/-- The aggregation key from `executeTuple`:
`"f_" + filterId + "_m" + metric + "_b" + bucket`. -/
def mkKey (filterId : String) (metric bucket : Int) : String :=
  "f_" ++ filterId ++ "_m" ++ (⟨intToChars metric⟩ : String) ++ "_b" ++
    (⟨intToChars bucket⟩ : String)

/-- Minute bucketing from `executeTuple`: `bucket = ts - (ts % 60)`,
with Java's truncating `%`. -/
def bucketOf (ts : Int) : Int := ts - ts.tmod 60

/-- `resultAggregator.get(k).increment(inc)`: adds `inc` to the entry with the
given key, leaving the rest of the table unchanged. -/
def tableIncrement :
    List (String × SupervisorFilterStats) → String → Int →
      List (String × SupervisorFilterStats)
  | [], _, _ => []
  | (k', v) :: rest, k, inc =>
      if k' = k then (k', v.increment inc) :: rest
      else (k', v) :: tableIncrement rest k inc

/-- `executeTuple`: computes the wall-clock minute bucket, builds the
concatenated key, inserts a fresh zero-count entry when the key is absent and
then increments the entry for the key.  The wall-clock Unix timestamp is an
explicit argument. -/
def executeTuple (table : List (String × SupervisorFilterStats))
    (filterId : String) (metric : Int) (increment : Int) (ts : Int) :
    List (String × SupervisorFilterStats) :=
  let bucket := bucketOf ts
  let k := mkKey filterId metric bucket
  let table1 :=
    if (table.lookup k).isSome then table
    else table ++ [(k, ⟨filterId, metric, bucket, 0⟩)]
  tableIncrement table1 k increment

/-- Observable effects of one `_flush` call: the lines written to standard
output, the batches delivered to the supervisor, and the table afterwards. -/
structure FlushResult where
  printed : List String
  sent : List (String × String)
  table : List (String × SupervisorFilterStats)

/-- `_flush`: iterates the accumulated entries printing `key + " = " + count`
for each; the whole HTTP delivery block is commented out in the source, so no
batch is ever sent; finally `resultAggregator.clear()` empties the table. -/
def flushStep (table : List (String × SupervisorFilterStats)) : FlushResult :=
  let printed :=
    table.foldl (fun acc kv => acc ++ [kv.1 ++ " = " ++ toString kv.2.count])
      ([] : List String)
  { printed := printed, sent := [], table := [] }

/-- C1: for every event consumed by the aggregator, the bucket identifier is
the event's Unix timestamp floored to the nearest 60-second boundary: it is
the largest multiple of 60 not exceeding `ts`; in particular `ts = 125` and
`ts = 179` both give bucket `120` and `ts = 180` gives bucket `180`. -/
theorem bucketOf_floor (ts : Int) :
    (0 ≤ ts →
      bucketOf ts = 60 * (ts / 60) ∧ bucketOf ts ≤ ts ∧
        ts < bucketOf ts + 60 ∧ bucketOf ts % 60 = 0) ∧
    bucketOf 125 = 120 ∧ bucketOf 179 = 120 ∧ bucketOf 180 = 180 := by
  refine ⟨fun h => ?_, by decide, by decide, by decide⟩
  unfold bucketOf
  rw [Int.tmod_eq_emod h (by norm_num)]
  omega

/-- Witness for C1 at `ts = 125`. -/
theorem bucketOf_floor_witness :
    (0 : Int) ≤ 125 ∧
      (bucketOf 125 = 60 * (125 / 60) ∧ bucketOf 125 ≤ 125 ∧
        (125 : Int) < bucketOf 125 + 60 ∧ bucketOf 125 % 60 = 0) :=
  ⟨by decide, (bucketOf_floor 125).1 (by decide)⟩

theorem foldl_snoc_eq_map {α β : Type} (g : α → β) :
    ∀ (l : List α) (acc : List β),
      l.foldl (fun a x => a ++ [g x]) acc = acc ++ l.map g := by
  intro l
  induction l with
  | nil => intro acc; simp
  | cons x xs ih => intro acc; simp [ih]

/-- A sample one-entry accumulation table. -/
def sampleTable : List (String × SupervisorFilterStats) :=
  [(mkKey "a" 1 60, ⟨"a", 1, 60, 5⟩)]

/-- C3 counterexample: a non-empty accumulation table is flushed, yet no batch
at all reaches the ingestion endpoint — refuting the claim that every
accumulated entry is sent there (the delivery block is commented out). -/
theorem flushStep_sends_nothing :
    sampleTable ≠ [] ∧ (flushStep sampleTable).sent = [] :=
  ⟨by simp [sampleTable], rfl⟩

/-- C3 amended: on every tick the aggregator flushes by printing one
line-oriented record `key = count` per accumulated entry; network delivery is
disabled in the source so no batch is sent; and afterwards the accumulation
table is empty regardless of delivery. -/
theorem flushStep_spec (table : List (String × SupervisorFilterStats)) :
    (flushStep table).printed =
        table.map (fun kv => kv.1 ++ " = " ++ toString kv.2.count) ∧
      (flushStep table).sent = [] ∧ (flushStep table).table = [] := by
  refine ⟨?_, rfl, rfl⟩
  show table.foldl _ [] = _
  rw [foldl_snoc_eq_map (fun kv => kv.1 ++ " = " ++ toString kv.2.count) table []]
  simp

/-! ### Key-construction injectivity (C5) -/

theorem natToChars_ne_nil (n : Nat) : natToChars n ≠ [] := by
  rw [natToChars]
  split <;> simp

theorem mem_natToChars_digit (n : Nat) :
    ∀ c ∈ natToChars n, 48 ≤ c.toNat ∧ c.toNat ≤ 57 := by
  induction n using Nat.strong_induction_on with
  | _ n ih =>
    rw [natToChars]
    split
    · next h =>
      intro c hc
      simp only [List.mem_singleton] at hc
      subst hc
      interval_cases n <;> decide
    · next h =>
      intro c hc
      rw [List.mem_append] at hc
      rcases hc with hc | hc
      · exact ih (n / 10) (Nat.div_lt_self (by omega) (by omega)) c hc
      · simp only [List.mem_singleton] at hc
        subst hc
        have h10 : n % 10 < 10 := Nat.mod_lt _ (by omega)
        generalize n % 10 = k at h10 ⊢
        interval_cases k <;> decide

/-- Decimal valuation of a digit string, a left inverse to `natToChars`. -/
def parseNat (l : List Char) : Nat :=
  l.foldl (fun a c => 10 * a + (c.toNat - 48)) 0

theorem parseNat_natToChars (n : Nat) : parseNat (natToChars n) = n := by
  induction n using Nat.strong_induction_on with
  | _ n ih =>
    rw [natToChars]
    split
    · next h =>
      unfold parseNat
      simp only [List.foldl_cons, List.foldl_nil]
      generalize hk : n = k at h ⊢
      interval_cases k <;> decide
    · next h =>
      unfold parseNat
      rw [List.foldl_append]
      have ihd := ih (n / 10) (Nat.div_lt_self (by omega) (by omega))
      unfold parseNat at ihd
      rw [ihd]
      simp only [List.foldl_cons, List.foldl_nil]
      have h10 : n % 10 < 10 := Nat.mod_lt _ (by omega)
      have hchar : (Char.ofNat (48 + n % 10)).toNat = 48 + n % 10 := by
        generalize n % 10 = k at h10 ⊢
        interval_cases k <;> decide
      rw [hchar]
      omega

theorem natToChars_injective {a b : Nat} (h : natToChars a = natToChars b) :
    a = b := by
  have h2 := congrArg parseNat h
  rwa [parseNat_natToChars, parseNat_natToChars] at h2

theorem mem_intToChars_ne_underscore (i : Int) :
    ∀ c ∈ intToChars i, c ≠ '_' := by
  intro c hc
  unfold intToChars at hc
  split at hc
  · rcases List.mem_cons.mp hc with h | h
    · subst h; decide
    · have hd := mem_natToChars_digit _ c h
      intro he
      subst he
      exact absurd hd (by decide)
  · have hd := mem_natToChars_digit _ c hc
    intro he
    subst he
    exact absurd hd (by decide)

theorem natToChars_head_digit (n : Nat) :
    ∃ h t, natToChars n = h :: t ∧ 48 ≤ h.toNat ∧ h.toNat ≤ 57 := by
  cases hn : natToChars n with
  | nil => exact absurd hn (natToChars_ne_nil n)
  | cons h t =>
    have hm : h ∈ natToChars n := by rw [hn]; exact List.mem_cons_self h t
    obtain ⟨d1, d2⟩ := mem_natToChars_digit n h hm
    exact ⟨h, t, rfl, d1, d2⟩

theorem intToChars_injective {i j : Int} (h : intToChars i = intToChars j) :
    i = j := by
  unfold intToChars at h
  by_cases hi : i < 0 <;> by_cases hj : j < 0 <;> simp only [hi, hj, if_true,
    if_false, if_neg, if_pos] at h
  · rw [List.cons_eq_cons] at h
    have := natToChars_injective h.2
    omega
  · obtain ⟨hh, tt, heq, hd1, hd2⟩ := natToChars_head_digit j.toNat
    rw [heq, List.cons_eq_cons] at h
    rw [← h.1] at hd1
    exact absurd hd1 (by decide)
  · obtain ⟨hh, tt, heq, hd1, hd2⟩ := natToChars_head_digit i.toNat
    rw [heq, List.cons_eq_cons] at h
    rw [h.1] at hd1
    exact absurd hd1 (by decide)
  · have := natToChars_injective h
    omega

theorem append_underscore_cancel :
    ∀ (x1 x2 r1 r2 : List Char), '_' ∉ x1 → '_' ∉ x2 →
      x1 ++ '_' :: r1 = x2 ++ '_' :: r2 → x1 = x2 ∧ r1 = r2 := by
  intro x1
  induction x1 with
  | nil =>
    intro x2 r1 r2 _ hx2 h
    cases x2 with
    | nil =>
      simp only [List.nil_append, List.cons_eq_cons] at h
      exact ⟨rfl, h.2⟩
    | cons c t =>
      simp only [List.nil_append, List.cons_append, List.cons_eq_cons] at h
      exact absurd (h.1 ▸ List.mem_cons_self c t) hx2
  | cons c t ih =>
    intro x2 r1 r2 hx1 hx2 h
    cases x2 with
    | nil =>
      simp only [List.nil_append, List.cons_append, List.cons_eq_cons] at h
      exact absurd (h.1.symm ▸ List.mem_cons_self c t) hx1
    | cons c' t' =>
      simp only [List.cons_append, List.cons_eq_cons] at h
      obtain ⟨h1, h2⟩ := h
      obtain ⟨e1, e2⟩ := ih t' r1 r2
        (fun hm => hx1 (List.mem_cons_of_mem _ hm))
        (fun hm => hx2 (List.mem_cons_of_mem _ hm)) h2
      exact ⟨by rw [h1, e1], e2⟩

theorem mkKey_data (f : String) (m b : Int) :
    (mkKey f m b).data =
      'f' :: '_' ::
        (f.data ++ '_' :: 'm' ::
          (intToChars m ++ '_' :: 'b' :: intToChars b)) := by
  have d1 : ("f_" : String).data = ['f', '_'] := rfl
  have d2 : ("_m" : String).data = ['_', 'm'] := rfl
  have d3 : ("_b" : String).data = ['_', 'b'] := rfl
  simp [mkKey, String.data_append, d1, d2, d3]

theorem mkKey_inj_aux {f1 f2 : String} {m1 b1 m2 b2 : Int}
    (h : mkKey f1 m1 b1 = mkKey f2 m2 b2) : f1 = f2 ∧ m1 = m2 ∧ b1 = b2 := by
  have hd := congrArg String.data h
  rw [mkKey_data, mkKey_data] at hd
  have hrev := congrArg List.reverse hd
  simp only [List.reverse_cons, List.reverse_append, List.append_assoc,
    List.cons_append, List.nil_append] at hrev
  have hshb : ∀ (x z : List Char), x ++ 'b' :: '_' :: z = (x ++ ['b']) ++ '_' :: z := by
    intro x z
    rw [List.append_assoc]
    rfl
  have hshm : ∀ (x z : List Char), x ++ 'm' :: '_' :: z = (x ++ ['m']) ++ '_' :: z := by
    intro x z
    rw [List.append_assoc]
    rfl
  rw [hshb, hshb, hshm, hshm] at hrev
  have hub1 : '_' ∉ (intToChars b1).reverse ++ ['b'] := by
    intro hm
    rcases List.mem_append.mp hm with hm | hm
    · exact mem_intToChars_ne_underscore b1 _ (List.mem_reverse.mp hm) rfl
    · simp at hm
  have hub2 : '_' ∉ (intToChars b2).reverse ++ ['b'] := by
    intro hm
    rcases List.mem_append.mp hm with hm | hm
    · exact mem_intToChars_ne_underscore b2 _ (List.mem_reverse.mp hm) rfl
    · simp at hm
  obtain ⟨eb, erest⟩ := append_underscore_cancel _ _ _ _ hub1 hub2 hrev
  have hb : b1 = b2 :=
    intToChars_injective (List.reverse_injective (List.append_cancel_right eb))
  have hum1 : '_' ∉ (intToChars m1).reverse ++ ['m'] := by
    intro hm
    rcases List.mem_append.mp hm with hm | hm
    · exact mem_intToChars_ne_underscore m1 _ (List.mem_reverse.mp hm) rfl
    · simp at hm
  have hum2 : '_' ∉ (intToChars m2).reverse ++ ['m'] := by
    intro hm
    rcases List.mem_append.mp hm with hm | hm
    · exact mem_intToChars_ne_underscore m2 _ (List.mem_reverse.mp hm) rfl
    · simp at hm
  obtain ⟨em, ef⟩ := append_underscore_cancel _ _ _ _ hum1 hum2 erest
  have hm : m1 = m2 :=
    intToChars_injective (List.reverse_injective (List.append_cancel_right em))
  have hf : f1 = f2 := by
    have hf1 : f1.data.reverse = f2.data.reverse := List.append_cancel_right ef
    have hf2 : f1.data = f2.data := List.reverse_injective hf1
    cases f1
    cases f2
    exact congrArg String.mk hf2
  exact ⟨hf, hm, hb⟩

/-- C5: the aggregation-key construction
`"f_" + filterId + "_m" + metric + "_b" + bucket` is injective over all string
filter ids and integer metrics/buckets, so two events are accumulated into the
same aggregation-table entry exactly when their `(filterId, metric, bucket)`
triples coincide. -/
theorem mkKey_injective (f1 f2 : String) (m1 b1 m2 b2 : Int) :
    mkKey f1 m1 b1 = mkKey f2 m2 b2 ↔ f1 = f2 ∧ m1 = m2 ∧ b1 = b2 := by
  constructor
  · exact mkKey_inj_aux
  · rintro ⟨rfl, rfl, rfl⟩
    rfl

/-! ### Supervisor: `supervisor.go` -/

inductive AuthResult where
  | ok
  | badRequest (msg : String)
  | unauthorized
  deriving DecidableEq

/-- Character-level split at the first occurrence of `sep`: the part before
and, when the separator occurs, the part after it. -/
def breakAtChar (sep : Char) : List Char → List Char × Option (List Char)
  | [] => ([], none)
  | c :: rest =>
      if c = sep then ([], some rest)
      else
        let r := breakAtChar sep rest
        (c :: r.1, r.2)

/-- Go `strings.SplitN(s, sep, 2)` for the single-character separators used in
`basicAuth` (`" "` and `":"`): split around the first instance of the
separator. -/
def splitN2 (s : String) (sep : Char) : List String :=
  match breakAtChar sep s.data with
  | (x, none) => [String.mk x]
  | (x, some rest) => [String.mk x, String.mk rest]

/-- `validateAuth`: compares against the configured shared-secret
username/password pair. -/
def validateAuth (basicAuthUsr basicAuthPwd username password : String) : Bool :=
  username == basicAuthUsr && password == basicAuthPwd

/-- `basicAuth`: header-presence check, `"Basic <token>"` syntax check, then
credential check.  `decode64` stands for `base64.StdEncoding.DecodeString`,
whose error the source discards (`payload, _ := ...`). -/
def basicAuth (decode64 : String → String) (usr pwd : String)
    (authHeader : List String) : AuthResult :=
  if authHeader.length < 1 then .badRequest "bad syntax a"
  else
    let auth := splitN2 (authHeader.headD "") ' '
    if auth.length ≠ 2 ∨ auth.headD "" ≠ "Basic" then .badRequest "bad syntax b"
    else
      let payload := decode64 (auth.getD 1 "")
      let pair := splitN2 payload ':'
      if pair.length ≠ 2 ∨
          validateAuth usr pwd (pair.headD "") (pair.getD 1 "") = false then
        .unauthorized
      else .ok

/-- Modelled from the spec: the `Filter` record
`{id, name, owner, pattern, results}` (its Go definition is not among the
provided sources) with the two-level results mapping; `results` is nilable
since the Go list handler assigns `nil` to it. -/
structure Filter where
  id : String
  name : String
  owner : String
  pattern : String
  results : Option (List (Int × List (Int × Int)))
  deriving DecidableEq

/-- Modelled from the spec: `FilterManager.GetFilter(id)` resolves an id to
its filter, `NotFound` as `none`. -/
def fmGetFilter (fm : List Filter) (id : String) : Option Filter :=
  fm.find? (fun f => f.id == id)

/-- Modelled from the spec: `FilterManager.GetFilters()` — filters are "read
via snapshot queries", so listing yields a snapshot of the stored filters. -/
def fmGetFilters (fm : List Filter) : List Filter := fm

/-- Modelled from the spec: `FilterManager.DeleteFilter(id)` removes the
filter and reports whether one existed. -/
def fmDeleteFilter (fm : List Filter) (id : String) : Bool × List Filter :=
  ((fm.find? (fun f => f.id == id)).isSome, fm.filter (fun f => f.id ≠ id))

/-- Modelled from the spec: `FilterManager.CreateFilter(name, owner, regex)`
generates a fresh id and stores the new filter. -/
def fmCreateFilter (fm : List Filter) (name owner regex : String) :
    String × List Filter :=
  let id := toString (fm.length + 1)
  (id, fm ++ [⟨id, name, owner, regex, none⟩])

/-- Modelled from the spec: add a delta into the inner bucket-to-count map. -/
def updBucket : List (Int × Int) → Int → Int → List (Int × Int)
  | [], bk, delta => [(bk, delta)]
  | (k, v) :: rest, bk, delta =>
      if k = bk then (k, v + delta) :: rest
      else (k, v) :: updBucket rest bk delta

/-- Modelled from the spec: add a delta into the two-level results map. -/
def updResults :
    List (Int × List (Int × Int)) → Int → Int → Int →
      List (Int × List (Int × Int))
  | [], m, bk, delta => [(m, [(bk, delta)])]
  | (k, inner) :: rest, m, bk, delta =>
      if k = m then (k, updBucket inner bk delta) :: rest
      else (k, inner) :: updResults rest m bk delta

/-- Modelled from the spec: a flushed record line carries
`(metric, bucket, count)`; the exact line syntax is not among the provided
sources, here three space-separated integers; malformed lines are skipped. -/
def parseRecord (line : String) : Option (Int × Int × Int) :=
  match line.splitOn " " with
  | [a, b, c] =>
      match a.toInt?, b.toInt?, c.toInt? with
      | some m, some bk, some cnt => some (m, bk, cnt)
      | _, _, _ => none
  | _ => none

/-- Modelled from the spec: `Filter.AddResults(lines)` applies each parsed
record additively and counts the records applied. -/
def filterAddResults (f : Filter) (lines : List String) : Filter × Nat :=
  lines.foldl
    (fun acc line =>
      match parseRecord line with
      | none => acc
      | some (m, bk, cnt) =>
          ({ acc.1 with
              results := some (updResults (acc.1.results.getD []) m bk cnt) },
            acc.2 + 1))
    (f, 0)

/-- JSON response envelopes written by the handlers. -/
inductive Response where
  | authBadRequest (msg : String)
  | authUnauthorized
  | errorMsg (msg : String)
  | okHello
  | okCreated (filterId : String)
  | okResults (results : Option (List (Int × List (Int × Int))))
  | okAck (ack : Nat) (lines : Nat)
  | okFilters (filters : List Filter)
  | okDeleted (deleted : Bool)
  deriving DecidableEq

/-- The `if !basicAuth(w, r) { return }` prelude shared by every handler:
`some` is the error response already written, `none` means proceed. -/
def authGate (decode64 : String → String) (usr pwd : String)
    (authHeader : List String) : Option Response :=
  match basicAuth decode64 usr pwd authHeader with
  | .ok => none
  | .badRequest msg => some (.authBadRequest msg)
  | .unauthorized => some .authUnauthorized

/-- `GetHome`. -/
def handlerGetHome (decode64 : String → String) (usr pwd : String)
    (authHeader : List String) (fm : List Filter) : Response × List Filter :=
  match authGate decode64 usr pwd authHeader with
  | some resp => (resp, fm)
  | none => (.okHello, fm)

/-- `PostFilter`: validates the `regex` and `name` query parameters, then
creates the filter. -/
def handlerPostFilter (decode64 : String → String) (usr pwd : String)
    (authHeader : List String) (regex name remoteAddr : String)
    (fm : List Filter) : Response × List Filter :=
  match authGate decode64 usr pwd authHeader with
  | some resp => (resp, fm)
  | none =>
      let regexT := regex.trim
      if regexT.length < 1 then (.errorMsg "Please provide a regex", fm)
      else
        let nameT := name.trim
        if nameT.length < 1 then (.errorMsg "Please provide a name", fm)
        else
          let created := fmCreateFilter fm nameT remoteAddr regexT
          (.okCreated created.1, created.2)

/-- `GetFilterResult`: returns the stored results series of one filter. -/
def handlerGetFilterResult (decode64 : String → String) (usr pwd : String)
    (authHeader : List String) (id : String) (fm : List Filter) :
    Response × List Filter :=
  match authGate decode64 usr pwd authHeader with
  | some resp => (resp, fm)
  | none =>
      let idT := id.trim
      if idT.length < 1 then (.errorMsg "Please provide an ID", fm)
      else
        match fmGetFilter fm idT with
        | none => (.errorMsg ("Filter " ++ idT ++ " not found"), fm)
        | some filter => (.okResults filter.results, fm)

/-- `PutFilterResult`: merges the body lines into the filter's results. -/
def handlerPutFilterResult (decode64 : String → String) (usr pwd : String)
    (authHeader : List String) (id : String) (bodyLines : List String)
    (fm : List Filter) : Response × List Filter :=
  match authGate decode64 usr pwd authHeader with
  | some resp => (resp, fm)
  | none =>
      let idT := id.trim
      if idT.length < 1 then (.errorMsg "Please provide an ID", fm)
      else
        match fmGetFilter fm idT with
        | none => (.errorMsg ("Filter " ++ idT ++ " not found"), fm)
        | some filter =>
            let merged := filterAddResults filter bodyLines
            (.okAck merged.2 bodyLines.length,
              fm.map (fun g => if g.id = filter.id then merged.1 else g))

/-- `GetFilter` (the list handler): takes a snapshot of the filters and strips
the results field from every element of the response. -/
def handlerGetFilter (decode64 : String → String) (usr pwd : String)
    (authHeader : List String) (fm : List Filter) : Response × List Filter :=
  match authGate decode64 usr pwd authHeader with
  | some resp => (resp, fm)
  | none =>
      let filters := fmGetFilters fm
      let filtersNoRes := filters.map (fun f => { f with results := none })
      (.okFilters filtersNoRes, fm)

/-- `DeleteFilter`. -/
def handlerDeleteFilter (decode64 : String → String) (usr pwd : String)
    (authHeader : List String) (id : String) (fm : List Filter) :
    Response × List Filter :=
  match authGate decode64 usr pwd authHeader with
  | some resp => (resp, fm)
  | none =>
      let idT := id.trim
      if idT.length < 1 then (.errorMsg "Please provide an ID", fm)
      else
        let deleted := fmDeleteFilter fm idT
        (.okDeleted deleted.1, deleted.2)

/-- The filters carried by an `okFilters` response. -/
def respFilters : Response → List Filter
  | .okFilters l => l
  | _ => []

/-- C8: a missing Authorization header, or one not of the two-part
`"Basic <token>"` form, is rejected as bad-request; a header that parses but
whose decoded `username:password` pair fails the shared-secret check is
rejected as unauthorized; and whenever authentication does not succeed, every
handler returns the auth error with the store unchanged — no registry logic
runs. -/
theorem basicAuth_gate (decode64 : String → String) (usr pwd : String)
    (h : List String) (fm : List Filter) (id name regex addr : String)
    (body : List String) :
    (h = [] → basicAuth decode64 usr pwd h = .badRequest "bad syntax a") ∧
    (∀ hd rest, h = hd :: rest →
      ((splitN2 hd ' ').length ≠ 2 ∨ (splitN2 hd ' ').headD "" ≠ "Basic") →
      basicAuth decode64 usr pwd h = .badRequest "bad syntax b") ∧
    (∀ hd rest, h = hd :: rest →
      (splitN2 hd ' ').length = 2 → (splitN2 hd ' ').headD "" = "Basic" →
      ((splitN2 (decode64 ((splitN2 hd ' ').getD 1 "")) ':').length ≠ 2 ∨
        validateAuth usr pwd
          ((splitN2 (decode64 ((splitN2 hd ' ').getD 1 "")) ':').headD "")
          ((splitN2 (decode64 ((splitN2 hd ' ').getD 1 "")) ':').getD 1 "")
          = false) →
      basicAuth decode64 usr pwd h = .unauthorized) ∧
    (basicAuth decode64 usr pwd h ≠ .ok →
      ∃ r, authGate decode64 usr pwd h = some r ∧
        handlerGetHome decode64 usr pwd h fm = (r, fm) ∧
        handlerPostFilter decode64 usr pwd h regex name addr fm = (r, fm) ∧
        handlerGetFilterResult decode64 usr pwd h id fm = (r, fm) ∧
        handlerPutFilterResult decode64 usr pwd h id body fm = (r, fm) ∧
        handlerGetFilter decode64 usr pwd h fm = (r, fm) ∧
        handlerDeleteFilter decode64 usr pwd h id fm = (r, fm)) := by
  refine ⟨?_, ?_, ?_, ?_⟩
  · intro he
    subst he
    rfl
  · intro hd rest he hbad
    subst he
    unfold basicAuth
    rw [if_neg (by simp)]
    simp only [List.headD_cons]
    rw [if_pos hbad]
  · intro hd rest he h2 hbasic hpair
    subst he
    unfold basicAuth
    rw [if_neg (by simp)]
    simp only [List.headD_cons]
    rw [if_neg (not_or.mpr ⟨not_not_intro h2, not_not_intro hbasic⟩)]
    rw [if_pos hpair]
  · intro hne
    have hgate : ∃ r, authGate decode64 usr pwd h = some r := by
      unfold authGate
      cases hb : basicAuth decode64 usr pwd h with
      | ok => exact absurd hb hne
      | badRequest msg => exact ⟨.authBadRequest msg, rfl⟩
      | unauthorized => exact ⟨.authUnauthorized, rfl⟩
    obtain ⟨r, hr⟩ := hgate
    refine ⟨r, hr, ?_, ?_, ?_, ?_, ?_, ?_⟩ <;>
      simp only [handlerGetHome, handlerPostFilter, handlerGetFilterResult,
        handlerPutFilterResult, handlerGetFilter, handlerDeleteFilter, hr]

/-- Witness for C8: the empty header is rejected as bad-request and, for
example, the delete handler leaves a one-filter store untouched. -/
theorem basicAuth_gate_witness :
    ([] : List String) = [] ∧
      basicAuth (fun s => s) "cloud" "pelican" [] = .badRequest "bad syntax a" ∧
      basicAuth (fun s => s) "cloud" "pelican" [] ≠ .ok ∧
      handlerDeleteFilter (fun s => s) "cloud" "pelican" [] "x"
          [⟨"x", "n", "o", "p", none⟩] =
        (.authBadRequest "bad syntax a", [⟨"x", "n", "o", "p", none⟩]) := by
  have T := basicAuth_gate (fun s => s) "cloud" "pelican" []
    [⟨"x", "n", "o", "p", none⟩] "x" "n" "r" "a" []
  have h1 := T.1 rfl
  have hne : basicAuth (fun s => s) "cloud" "pelican" [] ≠ .ok := by
    rw [h1]
    decide
  obtain ⟨r, hr, -, -, -, -, -, h6⟩ := T.2.2.2 hne
  have hrv : r = .authBadRequest "bad syntax a" := by
    have : authGate (fun s => s) "cloud" "pelican" [] =
        some (.authBadRequest "bad syntax a") := by
      unfold authGate
      rw [h1]
    rw [this] at hr
    exact (Option.some_inj.mp hr).symm
  exact ⟨rfl, h1, hne, by rw [h6, hrv]⟩

/-- C2: the list operation returns every filter with its results field
stripped while leaving the stored filters unchanged, so a subsequent
get-results for any id answers exactly as before the listing. -/
theorem handlerGetFilter_frame (decode64 : String → String) (usr pwd : String)
    (h : List String) (fm : List Filter) (id : String)
    (hauth : basicAuth decode64 usr pwd h = .ok) :
    (handlerGetFilter decode64 usr pwd h fm).2 = fm ∧
    (handlerGetFilter decode64 usr pwd h fm).1 =
      .okFilters ((fmGetFilters fm).map (fun f => { f with results := none })) ∧
    (∀ f ∈ respFilters (handlerGetFilter decode64 usr pwd h fm).1,
      f.results = none) ∧
    handlerGetFilterResult decode64 usr pwd h id
        ((handlerGetFilter decode64 usr pwd h fm).2) =
      handlerGetFilterResult decode64 usr pwd h id fm := by
  have hgate : authGate decode64 usr pwd h = none := by
    unfold authGate
    rw [hauth]
  refine ⟨?_, ?_, ?_, ?_⟩
  · simp [handlerGetFilter, hgate]
  · simp [handlerGetFilter, hgate]
  · simp [handlerGetFilter, hgate, respFilters]
  · simp [handlerGetFilter, hgate]

/-- Witness for C2 on a store holding one filter with accumulated results. -/
theorem handlerGetFilter_frame_witness :
    basicAuth (fun _ => "cloud:pelican") "cloud" "pelican" ["Basic t"] = .ok ∧
      (handlerGetFilter (fun _ => "cloud:pelican") "cloud" "pelican"
            ["Basic t"] [⟨"x", "n", "o", "p", some [(1, [(60, 5)])]⟩]).2 =
        [⟨"x", "n", "o", "p", some [(1, [(60, 5)])]⟩] ∧
      handlerGetFilterResult (fun _ => "cloud:pelican") "cloud" "pelican"
          ["Basic t"] "x"
          ((handlerGetFilter (fun _ => "cloud:pelican") "cloud" "pelican"
              ["Basic t"] [⟨"x", "n", "o", "p", some [(1, [(60, 5)])]⟩]).2) =
        handlerGetFilterResult (fun _ => "cloud:pelican") "cloud" "pelican"
          ["Basic t"] "x" [⟨"x", "n", "o", "p", some [(1, [(60, 5)])]⟩] := by
  have hauth : basicAuth (fun _ => "cloud:pelican") "cloud" "pelican"
      ["Basic t"] = .ok := by decide
  have T := handlerGetFilter_frame (fun _ => "cloud:pelican") "cloud" "pelican"
    ["Basic t"] [⟨"x", "n", "o", "p", some [(1, [(60, 5)])]⟩] "x" hauth
  exact ⟨hauth, T.1, T.2.2.2⟩

/-! ### CLI statistics tool: terminal size and `RenderChart` -/

/-- The `Statistics` struct of the CLI chart renderer. -/
structure Statistics where
  verticalSep : String
  horizontalSep : String
  colPad : Int
  terminalWidth : Int
  terminalHeight : Int
  colorRed : String
  colorGreen : String
  colorReset : String
  deriving DecidableEq

/-- Outcome of `loadTerminalDimensions`: `fatal` models `log.Fatal`, which
terminates the process. -/
inductive TermDims where
  | fatal (msg : String)
  | dims (height width : Int)
  deriving DecidableEq

/-- `loadTerminalDimensions`: runs `stty size`; on command failure the source
calls `log.Fatal(err)`, terminating the process; otherwise it parses
`"<height> <width>"`, discarding `ParseInt` errors (which yield 0).  The
command's outcome is the explicit argument. -/
def loadTerminalDimensions (sttyOutput : Except String String) : TermDims :=
  match sttyOutput with
  | .error e => .fatal e
  | .ok out =>
      let str := out.trim
      let split := str.splitOn " "
      let height := ((split.getD 0 "").toInt?).getD 0
      let width := ((split.getD 1 "").toInt?).getD 0
      .dims height width

/-- `colorStr`: emits a colour-code transition only when the desired colour
differs from the current one, else the bare text. -/
def Statistics.colorStr (s : Statistics)
    (currentColor desiredColorName str : String) : String × String :=
  if currentColor == desiredColorName then (currentColor, str)
  else
    let code :=
      if desiredColorName == "green" then s.colorGreen
      else if desiredColorName == "red" then s.colorRed
      else if desiredColorName == "reset" then s.colorReset
      else ""
    (desiredColorName, code ++ str)

/-- Go map read with zero default: `m[k]` on a `map[int64]int64` (a `nil` map
also reads as 0, so the `inputData[errorMetricId] != nil` guard is absorbed). -/
def mget (m : List (Int × Int)) (k : Int) : Int := (m.lookup k).getD 0

/-- The bucket keys of the metric-1 map, sorted ascending (`sort.Ints`). -/
def sortedKeys (m1 : List (Int × Int)) : List Int :=
  List.insertionSort (· ≤ ·) (m1.map Prod.fst)

/-- `data`: the primary series aligned to the sorted keys. -/
def primarySeries (m1 : List (Int × Int)) : List Int :=
  (sortedKeys m1).map (fun k => mget m1 k)

/-- `dataSecondary`: the error series aligned to the same sorted keys. -/
def secondarySeries (m1 m2 : List (Int × Int)) : List Int :=
  (sortedKeys m1).map (fun k => mget m2 k)

/-- The truncation step: when the series exceeds the terminal width, keep only
the first `width - 1` points (`data = data[:s.terminalWidth-1]`). -/
def truncateData (width : Int) (d : List Int) : List Int :=
  if (d.length : Int) > width then d.take (width - 1).toNat else d

/-- `maxHeight := int(math.Min(float64(20), float64(s.terminalHeight-4)))`. -/
def chartRows (s : Statistics) : Int := min 20 (s.terminalHeight - 4)

/-- The per-row threshold
`minLineVal := int64(float64(line) / (float64(maxHeight) / float64(maxVal)))`,
modelled exactly over `ℚ` with the `int64` conversion truncating toward zero
(division by zero yields 0, as the float path also does for `maxVal = 0`). -/
def minLineVal (line maxHeight maxVal : Int) : Int :=
  let q : ℚ := (line : ℚ) / ((maxHeight : ℚ) / (maxVal : ℚ))
  q.num.tdiv (q.den : Int)

/-- One cell of the chart body: the left axis in column 0 of non-axis rows,
the horizontal axis on row 0, otherwise the data-point glyph choice. -/
def renderCell (s : Statistics) (d ds : List Int) (maxHeight maxVal : Int)
    (line : Int) (col : Nat) (cur : String) : String × String :=
  if col = 0 ∧ line ≠ 0 then s.colorStr cur "reset" s.verticalSep
  else if line = 0 then s.colorStr cur "reset" s.horizontalSep
  else
    let colVal := d.getD col 0
    let secondaryColVal := ds.getD col 0
    if colVal ≥ minLineVal line maxHeight maxVal then
      if secondaryColVal ≥ minLineVal line maxHeight maxVal then
        s.colorStr cur "red" "*"
      else s.colorStr cur "green" "o"
    else (cur, " ")

/-- Go `strings.Repeat`. -/
def repeatStr (str : String) (n : Nat) : String :=
  String.join (List.replicate n str)

/-- The column padding after each cell: plain spaces on data rows,
colour-tracked horizontal-axis characters on row 0. -/
def renderPad (s : Statistics) (colPad : Int) (line : Int) (cur : String) :
    String × String :=
  if line ≠ 0 then (cur, repeatStr " " colPad.toNat)
  else s.colorStr cur "reset" (repeatStr s.horizontalSep colPad.toNat)

/-- One row of the chart: iterate the data columns, emitting a cell and its
padding while threading the colour state. -/
def renderLine (s : Statistics) (d ds : List Int)
    (maxHeight maxVal colPad : Int) (line : Int) (cur : String) :
    String × String :=
  (List.range d.length).foldl
    (fun acc col =>
      let cell := renderCell s d ds maxHeight maxVal line col acc.1
      let pad := renderPad s colPad line cell.1
      (pad.1, acc.2 ++ cell.2 ++ pad.2))
    (cur, "")

/-- The row loop, top to bottom, a newline closing each row. -/
def renderLines (s : Statistics) (d ds : List Int)
    (maxHeight maxVal colPad : Int) :
    List Int → String → String × String
  | [], cur => (cur, "")
  | l :: rest, cur =>
      let row := renderLine s d ds maxHeight maxVal colPad l cur
      let tail := renderLines s d ds maxHeight maxVal colPad rest row.1
      (tail.1, row.2 ++ "\n" ++ tail.2)

/-- The loop bounds `for line := maxHeight; line >= 0; line--`. -/
def lineSeq (maxHeight : Int) : List Int :=
  ((List.range (maxHeight + 1).toNat).map Int.ofNat).reverse

/-- `RenderChart`: rejects a filter without metric-1 data, builds both series
over the sorted metric-1 buckets, truncates the primary series to the terminal
width, computes the row count, the value extrema and the column padding, and
renders the rows top to bottom followed by a blank line and a colour reset. -/
def RenderChart (s : Statistics) (inputData : List (Int × List (Int × Int))) :
    Except String String :=
  let metricId : Int := 1
  let errorMetricId : Int := 2
  match inputData.lookup metricId with
  | none => .error "Metrics not available for this filter"
  | some m1 =>
      if m1.length < 1 then .error "Metrics not available for this filter"
      else
        let m2 := (inputData.lookup errorMetricId).getD []
        let data0 := primarySeries m1
        let dataSecondary := secondarySeries m1 m2
        let data := truncateData s.terminalWidth data0
        let dataWidth : Int := data.length
        let maxHeight := chartRows s
        let maxWidth := max dataWidth s.terminalWidth
        let _minVal :=
          data.foldl (fun a v => if v < a then v else a) 9223372036854775807
        let maxVal :=
          data.foldl (fun a v => if v > a then v else a) (-9223372036854775808)
        let colPad := (maxWidth - dataWidth).tdiv dataWidth
        let body :=
          renderLines s data dataSecondary maxHeight maxVal colPad
            (lineSeq maxHeight) "reset"
        .ok (body.2 ++ "\n" ++ s.colorReset)

/-- C4: contrary to the claim, failure to obtain the terminal size is not
degraded to a default — the source calls `log.Fatal(err)`, aborting the
process; here the code is evaluated at a failing `stty size` invocation. -/
theorem loadTerminalDimensions_fatal :
    loadTerminalDimensions (Except.error "exit status 1") =
      TermDims.fatal "exit status 1" := rfl

/-- C6: when the primary series is longer than the terminal width, truncation
keeps exactly the first `width - 1` points with their values untouched (no
merging, summing or re-aggregation), and a series not exceeding the width is
left whole. -/
theorem truncateData_cases (width : Int) (d : List Int) :
    ((d.length : Int) > width →
      truncateData width d = d.take (width - 1).toNat ∧
        ∀ i < (truncateData width d).length,
          (truncateData width d).getD i 0 = d.getD i 0) ∧
    ((d.length : Int) ≤ width → truncateData width d = d) := by
  constructor
  · intro hgt
    have he : truncateData width d = d.take (width - 1).toNat := by
      unfold truncateData
      rw [if_pos hgt]
    refine ⟨he, ?_⟩
    intro i hi
    rw [he] at hi ⊢
    rw [List.length_take] at hi
    rw [List.getD_eq_getElem?_getD, List.getD_eq_getElem?_getD,
      List.getElem?_take, if_pos (by omega)]
  · intro hle
    unfold truncateData
    rw [if_neg (by omega)]

/-- Witness for C6: a five-point series against width 3 keeps the oldest two
points; a two-point series against width 3 is untouched. -/
theorem truncateData_cases_witness :
    ((([10, 20, 30, 40, 50] : List Int).length : Int) > 3 ∧
        truncateData 3 [10, 20, 30, 40, 50] = [10, 20]) ∧
      ((([10, 20] : List Int).length : Int) ≤ 3 ∧
        truncateData 3 [10, 20] = [10, 20]) :=
  ⟨⟨by decide,
      ((truncateData_cases 3 [10, 20, 30, 40, 50]).1 (by decide)).1.trans
        (by decide)⟩,
    ⟨by decide, (truncateData_cases 3 [10, 20]).2 (by decide)⟩⟩

/-- C7: on a non-axis row `line ≥ 1` and data column `col ≠ 0`, with
`chartRows s = min(20, terminalHeight - 4)` rows and threshold
`t = minLineVal line (chartRows s) maxVal`, the emitted cell is the
error-highlight glyph `*` exactly when both series reach the threshold, the
normal glyph `o` when only the primary series does, and a blank when the
primary series is below the threshold. -/
theorem renderCell_cases (s : Statistics) (d ds : List Int) (maxVal : Int)
    (line : Int) (col : Nat) (cur : String)
    (hline : 1 ≤ line) (hcol : col ≠ 0) :
    (minLineVal line (chartRows s) maxVal ≤ d.getD col 0 ∧
        minLineVal line (chartRows s) maxVal ≤ ds.getD col 0 →
      (renderCell s d ds (chartRows s) maxVal line col cur).2 = "*" ∨
        (renderCell s d ds (chartRows s) maxVal line col cur).2 =
          s.colorRed ++ "*") ∧
    (minLineVal line (chartRows s) maxVal ≤ d.getD col 0 ∧
        ds.getD col 0 < minLineVal line (chartRows s) maxVal →
      (renderCell s d ds (chartRows s) maxVal line col cur).2 = "o" ∨
        (renderCell s d ds (chartRows s) maxVal line col cur).2 =
          s.colorGreen ++ "o") ∧
    (d.getD col 0 < minLineVal line (chartRows s) maxVal →
      (renderCell s d ds (chartRows s) maxVal line col cur).2 = " ") := by
  have hl0 : line ≠ 0 := by omega
  unfold renderCell
  rw [if_neg (by simp [hcol]), if_neg hl0]
  refine ⟨?_, ?_, ?_⟩
  · rintro ⟨h1, h2⟩
    rw [if_pos h1, if_pos h2]
    unfold Statistics.colorStr
    by_cases hc : (cur == "red") = true
    · rw [if_pos hc]
      exact Or.inl rfl
    · rw [if_neg hc]
      exact Or.inr (by simp)
  · rintro ⟨h1, h2⟩
    rw [if_pos h1, if_neg (by omega)]
    unfold Statistics.colorStr
    by_cases hc : (cur == "green") = true
    · rw [if_pos hc]
      exact Or.inl rfl
    · rw [if_neg hc]
      exact Or.inr (by simp)
  · intro h1
    rw [if_neg (by omega)]

/-- A sample renderer configuration on an 80×24 terminal. -/
def demoStats : Statistics :=
  { verticalSep := "|", horizontalSep := "_", colPad := 3, terminalWidth := 80,
    terminalHeight := 24, colorRed := "R", colorGreen := "G",
    colorReset := "N" }

/-- Witness for C7 at row 1, column 1 of a two-column chart. -/
theorem renderCell_cases_witness :
    (minLineVal 1 (chartRows demoStats) 10 ≤ ([5, 9] : List Int).getD 1 0 ∧
        minLineVal 1 (chartRows demoStats) 10 ≤ ([0, 9] : List Int).getD 1 0 →
      (renderCell demoStats [5, 9] [0, 9] (chartRows demoStats) 10 1 1
            "reset").2 = "*" ∨
        (renderCell demoStats [5, 9] [0, 9] (chartRows demoStats) 10 1 1
            "reset").2 = demoStats.colorRed ++ "*") ∧
    (minLineVal 1 (chartRows demoStats) 10 ≤ ([5, 9] : List Int).getD 1 0 ∧
        ([0, 9] : List Int).getD 1 0 < minLineVal 1 (chartRows demoStats) 10 →
      (renderCell demoStats [5, 9] [0, 9] (chartRows demoStats) 10 1 1
            "reset").2 = "o" ∨
        (renderCell demoStats [5, 9] [0, 9] (chartRows demoStats) 10 1 1
            "reset").2 = demoStats.colorGreen ++ "o") ∧
    (([5, 9] : List Int).getD 1 0 < minLineVal 1 (chartRows demoStats) 10 →
      (renderCell demoStats [5, 9] [0, 9] (chartRows demoStats) 10 1 1
          "reset").2 = " ") :=
  renderCell_cases demoStats [5, 9] [0, 9] 10 1 1 "reset" (by decide)
    (by decide)

/-- C9: with a non-empty metric-1 map and a terminal at least two columns
wide, the truncated primary series is still non-empty (the column-padding
division has a positive divisor), it is never longer than the untruncated
secondary series (every rendered column index is in bounds for both), and
`RenderChart` returns a rendering rather than an error. -/
theorem renderChart_total (s : Statistics) (m1 m2 : List (Int × Int))
    (hne : m1 ≠ []) (hw : 2 ≤ s.terminalWidth) :
    0 < (truncateData s.terminalWidth (primarySeries m1)).length ∧
    (truncateData s.terminalWidth (primarySeries m1)).length ≤
      (secondarySeries m1 m2).length ∧
    (∃ out, RenderChart s [(1, m1), (2, m2)] = Except.ok out) := by
  have hkeys : (sortedKeys m1).length = m1.length :=
    (List.perm_insertionSort _ _).length_eq.trans (List.length_map _ _)
  have hp : (primarySeries m1).length = m1.length := by
    unfold primarySeries
    rw [List.length_map, hkeys]
  have hsec : (secondarySeries m1 m2).length = m1.length := by
    unfold secondarySeries
    rw [List.length_map, hkeys]
  have hm1 : 0 < m1.length := List.length_pos.mpr hne
  refine ⟨?_, ?_, ?_⟩
  · unfold truncateData
    split
    · next hgt =>
      rw [List.length_take, hp]
      omega
    · rw [hp]
      exact hm1
  · unfold truncateData
    split
    · next hgt =>
      rw [List.length_take, hp, hsec]
      omega
    · rw [hp, hsec]
  · have hlk : ([(1, m1), (2, m2)] : List (Int × List (Int × Int))).lookup 1 =
        some m1 := rfl
    have hlen : ¬ m1.length < 1 := by omega
    cases hres : RenderChart s [(1, m1), (2, m2)] with
    | error e =>
        exfalso
        simp [RenderChart, hlk, hlen] at hres
    | ok out => exact ⟨out, rfl⟩

/-- Witness for C9 on a one-point series. -/
theorem renderChart_total_witness :
    ([(60, 5)] : List (Int × Int)) ≠ [] ∧ (2 : Int) ≤ demoStats.terminalWidth ∧
      (0 < (truncateData demoStats.terminalWidth
            (primarySeries [(60, 5)])).length ∧
        (truncateData demoStats.terminalWidth
              (primarySeries [(60, 5)])).length ≤
          (secondarySeries [(60, 5)] []).length ∧
        ∃ out, RenderChart demoStats [(1, [(60, 5)]), (2, [])] =
          Except.ok out) :=
  ⟨by decide, by decide,
    renderChart_total demoStats [(60, 5)] [] (by decide) (by decide)⟩

/-! ### Determinism of the renderer (C10) -/

theorem lookup_eq_some_iff {β : Type} :
    ∀ {l : List (Int × β)}, (l.map Prod.fst).Nodup →
      ∀ {k : Int} {v : β}, l.lookup k = some v ↔ (k, v) ∈ l := by
  intro l
  induction l with
  | nil =>
    intro _ k v
    simp [List.lookup]
  | cons a t ih =>
    obtain ⟨a1, a2⟩ := a
    intro hnd k v
    rw [List.map_cons, List.nodup_cons] at hnd
    obtain ⟨hhead, htail⟩ := hnd
    rw [List.lookup]
    cases hak : (k == a1) with
    | true =>
      have hak' : k = a1 := by simpa using hak
      simp only [List.mem_cons]
      constructor
      · intro hv
        left
        have hv2 : a2 = v := by simpa using hv
        rw [hak', hv2]
      · rintro (hv | hv)
        · simp only [Prod.mk.injEq] at hv
          rw [hv.2]
        · exfalso
          exact hhead (List.mem_map.mpr ⟨(k, v), hv, hak'.symm ▸ rfl⟩)
    | false =>
      rw [ih htail]
      simp only [List.mem_cons]
      constructor
      · exact Or.inr
      · rintro (hv | hv)
        · exfalso
          have hk : k = a1 := by
            have h2 := congrArg Prod.fst hv
            simpa using h2
          rw [hk] at hak
          simp at hak
        · exact hv

theorem perm_lookup_eq {β : Type} {l l' : List (Int × β)} (hperm : l.Perm l')
    (hnd : (l.map Prod.fst).Nodup) (k : Int) : l.lookup k = l'.lookup k := by
  have hnd' : (l'.map Prod.fst).Nodup := (hperm.map Prod.fst).nodup_iff.mp hnd
  cases hl : l.lookup k with
  | some v =>
    have hm : (k, v) ∈ l := (lookup_eq_some_iff hnd).mp hl
    exact ((lookup_eq_some_iff hnd').mpr (hperm.mem_iff.mp hm)).symm
  | none =>
    cases hl' : l'.lookup k with
    | none => rfl
    | some v =>
      have hm : (k, v) ∈ l' := (lookup_eq_some_iff hnd').mp hl'
      have : l.lookup k = some v :=
        (lookup_eq_some_iff hnd).mpr (hperm.mem_iff.mpr hm)
      rw [hl] at this
      cases this

theorem sortedKeys_perm_eq {m m' : List (Int × Int)} (hperm : m.Perm m') :
    sortedKeys m = sortedKeys m' :=
  List.eq_of_perm_of_sorted
    (((List.perm_insertionSort _ _).trans (hperm.map Prod.fst)).trans
      (List.perm_insertionSort _ _).symm)
    (List.sorted_insertionSort _ _) (List.sorted_insertionSort _ _)

/-- Two Go maps, taken as association lists, carry the same finite mapping
when one is a key-duplicate-free permutation of the other; `none` stands for
a `nil` Go map. -/
def optMapRel : Option (List (Int × Int)) → Option (List (Int × Int)) → Prop
  | none, none => True
  | some m, some m' => m.Perm m' ∧ (m.map Prod.fst).Nodup
  | _, _ => False

/-- C10: `RenderChart` is deterministic — equal renderer configuration and
equal input mappings (as finite maps, independent of the iteration order of
the underlying hash maps) produce identical output strings and identical
error results, because the metric-1 keys are sorted before rendering and the
colour state evolves as a pure function of the emitted cells. -/
theorem renderChart_deterministic (s : Statistics)
    (dA dB : List (Int × List (Int × Int)))
    (h1 : optMapRel (dA.lookup 1) (dB.lookup 1))
    (h2 : optMapRel (dA.lookup 2) (dB.lookup 2)) :
    RenderChart s dA = RenderChart s dB := by
  cases hA1 : dA.lookup 1 with
  | none =>
    cases hB1 : dB.lookup 1 with
    | none => simp only [RenderChart, hA1, hB1]
    | some mB =>
      rw [hA1, hB1] at h1
      exact h1.elim
  | some mA =>
    cases hB1 : dB.lookup 1 with
    | none =>
      rw [hA1, hB1] at h1
      exact h1.elim
    | some mB =>
      rw [hA1, hB1] at h1
      obtain ⟨hperm, hnd⟩ := h1
      have hkeys : sortedKeys mA = sortedKeys mB := sortedKeys_perm_eq hperm
      have hprim : primarySeries mA = primarySeries mB := by
        unfold primarySeries
        rw [hkeys]
        refine List.map_congr_left ?_
        intro k _
        unfold mget
        rw [perm_lookup_eq hperm hnd k]
      have hsecond :
          secondarySeries mA ((dA.lookup 2).getD []) =
            secondarySeries mB ((dB.lookup 2).getD []) := by
        unfold secondarySeries
        rw [hkeys]
        refine List.map_congr_left ?_
        intro k _
        cases hA2 : dA.lookup 2 with
        | none =>
          cases hB2 : dB.lookup 2 with
          | none => rfl
          | some m =>
            rw [hA2, hB2] at h2
            exact h2.elim
        | some m =>
          cases hB2 : dB.lookup 2 with
          | none =>
            rw [hA2, hB2] at h2
            exact h2.elim
          | some m' =>
            rw [hA2, hB2] at h2
            obtain ⟨hp2, hn2⟩ := h2
            simp only [Option.getD_some]
            unfold mget
            rw [perm_lookup_eq hp2 hn2 k]
      have hlen : mA.length = mB.length := hperm.length_eq
      simp only [RenderChart, hA1, hB1]
      by_cases hlt : mA.length < 1
      · rw [if_pos hlt, if_pos (hlen ▸ hlt)]
      · rw [if_neg hlt, if_neg (hlen ▸ hlt), hprim, hsecond]

/-- Witness for C10: the same two-bucket mapping presented in two iteration
orders renders identically. -/
theorem renderChart_deterministic_witness :
    optMapRel
        (([(1, [(60, 5), (0, 10)])] :
            List (Int × List (Int × Int))).lookup 1)
        (([(1, [(0, 10), (60, 5)])] :
            List (Int × List (Int × Int))).lookup 1) ∧
      optMapRel
        (([(1, [(60, 5), (0, 10)])] :
            List (Int × List (Int × Int))).lookup 2)
        (([(1, [(0, 10), (60, 5)])] :
            List (Int × List (Int × Int))).lookup 2) ∧
      RenderChart demoStats [(1, [(60, 5), (0, 10)])] =
        RenderChart demoStats [(1, [(0, 10), (60, 5)])] := by
  have ha : optMapRel
      (([(1, [(60, 5), (0, 10)])] :
          List (Int × List (Int × Int))).lookup 1)
      (([(1, [(0, 10), (60, 5)])] :
          List (Int × List (Int × Int))).lookup 1) :=
    ⟨by decide, by decide⟩
  have hb : optMapRel
      (([(1, [(60, 5), (0, 10)])] :
          List (Int × List (Int × Int))).lookup 2)
      (([(1, [(0, 10), (60, 5)])] :
          List (Int × List (Int × Int))).lookup 2) := trivial
  exact ⟨ha, hb, renderChart_deterministic demoStats _ _ ha hb⟩

end CloudPelican
